import Mathlib

/-!
Verification of nng-loadtest: the worker callbacks and the command line.

A shallow embedding of `src/nng-loadtest.c`.  A callback invocation is a pure
function from the context it is given and the values the environment hands it
(the completion result and message held by the aio, the value of `rand()`, the
results of the message allocation and append) to the context it leaves behind,
the ordered list of calls it made on the transport and the standard streams,
and the way it ended.
-/

namespace NngLoadtest

/-! ## Messages and the u32 field -/

/-- Body of an `nng_msg`: a sequence of octets. -/
abbrev Msg := List (Fin 256)

/-- Octet number `i` (0 = least significant) of a natural number. -/
def octet (v i : Nat) : Fin 256 := ⟨(v / 256 ^ i) % 256, Nat.mod_lt _ (by decide)⟩

/-- Network-order (big-endian) octets of a `uint32_t`. -/
def be32 (v : Nat) : Msg := [octet v 3, octet v 2, octet v 1, octet v 0]

/-- Modelled from the spec: `nng_msg_append_u32` of the transport library, which
is not under src/ (spec 4.1 `encodeDelay`, spec 6 "big-endian unsigned 32-bit
integer field").  The four octets of the field are added at the end of the
body, as the name of the call says; on the empty message built by the client
this is the same as adding them at the front. -/
def nng_msg_append_u32 (m : Msg) (v : Nat) : Msg := m ++ be32 v

/-- Modelled from the spec: `nng_msg_trim_u32` of the transport library, which is
not under src/ (spec 4.1 `decodeDelay`): removes and returns the leading
unsigned 32-bit field; fails (`none`) if the message is shorter than 4 bytes,
and then the message is left as it was. -/
def nng_msg_trim_u32 (m : Msg) : Option (Nat × Msg) :=
  match m with
  | b3 :: b2 :: b1 :: b0 :: rest =>
      some (b3.val * 256 ^ 3 + b2.val * 256 ^ 2 + b1.val * 256 + b0.val, rest)
  | _ => none

/-- Modelled from the spec: the type `nng_duration` of the transport header
`nng/nng.h`, which is not under src/, is a signed 32-bit integer
(`typedef int32_t nng_duration;`).  This is the conversion of an `unsigned int`
argument to that parameter type of `nng_sleep_aio`: the value modulo 2^32 read
in two's complement, as the usual C implementations define it. -/
def to_nng_duration (w : Nat) : Int :=
  if w % 2 ^ 32 < 2 ^ 31 then ((w % 2 ^ 32 : Nat) : Int) else ((w % 2 ^ 32 : Nat) : Int) - 2 ^ 32

/-- Conversion of an `int` argument to a `uint32_t` parameter. -/
def to_uint32 (v : Int) : Nat := (v % 2 ^ 32).toNat

/-! ## What a callback does -/

/-- Calls a callback makes, in program order. -/
inductive Event where
  /-- Call `nng_ctx_recv(ctx, aio)`. -/
  | ctx_recv (ctx aio : Nat)
  /-- Call `nng_sleep_aio(ms, aio)`, with the duration as the primitive receives it. -/
  | sleep_aio (ms : Int) (aio : Nat)
  /-- Calls `nng_aio_set_msg(aio, m); nng_ctx_send(ctx, aio)`: the send and the
  message it hands to the transport (`none` is the NULL pointer). -/
  | ctx_send (ctx aio : Nat) (m : Option Msg)
  /-- Call `nng_msg_alloc(&s->msg, 0)` that succeeded. -/
  | msg_alloc
  /-- Call `nng_msg_free(m)`. -/
  | msg_free (m : Msg)
  /-- Call `rand()`. -/
  | rand
  /-- Call `fprintf(stderr, "<what>: %s\n", nng_strerror(rv))`. -/
  | stderr (what : String) (rv : Int)
  /-- Call `fprintf(stdout, text)`. -/
  | stdout (text : String)
  /-- Call `fflush(stdout)`. -/
  | fflush
  deriving DecidableEq, Repr

/-- How a callback invocation ends. -/
inductive Status where
  /-- The callback returned to the aio runtime. -/
  | running
  /-- The callback called `exit(code)`. -/
  | exited (code : Int)
  /-- An integer remainder by zero was evaluated: C gives it no meaning, the
  usual targets kill the process with SIGFPE; nothing after it is modelled. -/
  | trapped
  deriving DecidableEq, Repr

/-- Result of one callback invocation: the context as it is left, the calls
made, and how the invocation ended. -/
structure Step (σ : Type) where
  st : σ
  trace : List Event
  status : Status

/-- The asynchronous operations (receive, sleep, send) among the calls. -/
def Event.isAsync : Event → Bool
  | .ctx_recv _ _ => true
  | .sleep_aio _ _ => true
  | .ctx_send _ _ _ => true
  | _ => false

/-- Number of asynchronous operations submitted in a trace. -/
def submitted (t : List Event) : Nat := (t.filter Event.isAsync).length

/-- The texts written to standard output in a trace, one per `fprintf`. -/
def stdout_writes : List Event → List String
  | [] => []
  | .stdout s :: t => s :: stdout_writes t
  | _ :: t => stdout_writes t

/-- What the aio holds when its callback runs: `nng_aio_result(aio)` and
`nng_aio_get_msg(aio)`. -/
structure Completion where
  result : Int
  msg : Msg

/-! ## Server -/

/-- The C `struct server_state`; a NULL `msg` is `none`. -/
structure server_state where
  state : Int
  ctx : Nat
  aio : Nat
  msg : Option Msg
  deriving DecidableEq, Repr

/-- The C `server_cb`. -/
def server_cb (s : server_state) (c : Completion) : Step server_state :=
  if s.state = 0 then
    ⟨{ s with state := 1 }, [.ctx_recv s.ctx s.aio], .running⟩
  else if s.state = 1 then
    if c.result ≠ 0 then
      ⟨s, [.stderr "ctx_recv" c.result], .exited 1⟩
    else
      match nng_msg_trim_u32 c.msg with
      | none =>
          -- bad message, just ignore it
          ⟨{ s with msg := none }, [.msg_free c.msg, .ctx_recv s.ctx s.aio], .running⟩
      | some (when, body) =>
          ⟨{ s with msg := some body, state := 2 },
            [.sleep_aio (to_nng_duration when) s.aio], .running⟩
  else if s.state = 2 then
    ⟨{ s with state := 3, msg := none }, [.ctx_send s.ctx s.aio s.msg], .running⟩
  else if s.state = 3 then
    if c.result ≠ 0 then
      ⟨s, [.stderr "ctx_send" c.result], .exited 1⟩
    else
      ⟨{ s with state := 1 }, [.ctx_recv s.ctx s.aio], .running⟩
  else
    ⟨s, [], .running⟩

/-! ## Client -/

/-- The C `struct client_state`. -/
structure client_state where
  state : Int
  ctx : Nat
  aio : Nat
  msg : Option Msg
  dly : Int
  deriving DecidableEq, Repr

/-- What the environment hands a client callback: the completion held by the
aio, the value `rand()` returns if called, and the results of
`nng_msg_alloc` and `nng_msg_append_u32` if called. -/
structure ClientIn where
  result : Int
  msg : Msg
  rnd : Int
  alloc_rv : Int
  append_rv : Int

/-- The delay expression of `client_cb` case 0,
`(rand() % (s->dly / 2)) + s->dly / 2` when `s->dly != 0`, else `0`, with C's
truncating `/` and `%`; `none` when the remainder is taken by zero. -/
def compose_dly (dly rnd : Int) : Option Int :=
  if dly ≠ 0 then
    if dly.tdiv 2 = 0 then none
    else some (rnd.tmod (dly.tdiv 2) + dly.tdiv 2)
  else some 0

/-- Calls made by case 0 of `client_cb` before the append: the allocation, and
`rand()` when `s->dly != 0`. -/
def compose_calls (dly : Int) : List Event :=
  if dly ≠ 0 then [.msg_alloc, .rand] else [.msg_alloc]

/-- Body of `case 0` of `client_cb` (compose and send). -/
def client_case0 (s : client_state) (i : ClientIn) : Step client_state :=
  if i.alloc_rv ≠ 0 then
    ⟨s, [.stderr "msg_alloc" i.alloc_rv], .exited 1⟩
  else
    match compose_dly s.dly i.rnd with
    | none => ⟨{ s with msg := some [] }, compose_calls s.dly, .trapped⟩
    | some dly =>
        if i.append_rv ≠ 0 then
          ⟨{ s with msg := some [] },
            compose_calls s.dly ++ [.stderr "msg_append" i.append_rv], .exited 1⟩
        else
          ⟨{ s with msg := none, state := 1 },
            compose_calls s.dly ++
              [.ctx_send s.ctx s.aio (some (nng_msg_append_u32 [] (to_uint32 dly)))],
            .running⟩

/-- The C `client_cb`.  In case 2 the callback stores `state = 0` and calls
itself; that nested call dispatches to case 0, whose body is `client_case0`. -/
def client_cb (s : client_state) (i : ClientIn) : Step client_state :=
  if s.state = 0 then
    client_case0 s i
  else if s.state = 1 then
    if i.result ≠ 0 then
      ⟨s, [.stderr "send" i.result], .exited 1⟩
    else
      ⟨{ s with state := 2 }, [.ctx_recv s.ctx s.aio], .running⟩
  else if s.state = 2 then
    if i.result ≠ 0 then
      ⟨s, [.stderr "recv" i.result], .exited 1⟩
    else
      let r := client_case0 { s with msg := none, state := 0 } i
      ⟨r.st, [.msg_free i.msg, .stdout ".", .fflush] ++ r.trace, r.status⟩
  else
    ⟨s, [], .running⟩

/-! ## A context driven by the aio runtime -/

/-- A context under the aio runtime: the context, how its last callback ended,
every call made so far, the number of asynchronous operations submitted and not
yet completed, and for each callback invocation so far the context it found and
the input it was given. -/
structure Run (σ ι : Type) where
  st : σ
  status : Status
  trace : List Event
  outstanding : Int
  history : List (σ × ι)

/-- The first call of the callback, made by `server()` or `client()` on a
context that has no operation outstanding. -/
def start {σ ι : Type} (cb : σ → ι → Step σ) (s : σ) (i : ι) : Run σ ι :=
  let n := cb s i
  ⟨n.st, n.status, n.trace, submitted n.trace, [(s, i)]⟩

/-- The runtime completes the outstanding operation and invokes the callback
with input `i`. -/
def advance {σ ι : Type} (cb : σ → ι → Step σ) (r : Run σ ι) (i : ι) : Run σ ι :=
  let n := cb r.st i
  ⟨n.st, n.status, r.trace ++ n.trace, r.outstanding - 1 + submitted n.trace,
    r.history ++ [(r.st, i)]⟩

/-- One completion and callback per element of the list, for as long as the
process is alive. -/
def drive {σ ι : Type} (cb : σ → ι → Step σ) (r : Run σ ι) : List ι → Run σ ι
  | [] => r
  | i :: rest =>
      match r.status with
      | .running => drive cb (advance cb r i) rest
      | _ => r

/-- A server context as `calloc` leaves it in `server()`, with the handles
given by `nng_ctx_open` and `nng_aio_alloc`. -/
def server_init (ctx aio : Nat) : server_state := ⟨0, ctx, aio, none⟩

/-- A client context as `calloc` leaves it in `client()`, with the handles
given by `nng_ctx_open` and `nng_aio_alloc`; `dly` is a parameter here. -/
def client_init (ctx aio : Nat) (dly : Int) : client_state := ⟨0, ctx, aio, none, dly⟩

/-- Run of one server context: the starting call, then one callback per
completion. -/
def server_run (ctx aio : Nat) (c0 : Completion) (cs : List Completion) :
    Run server_state Completion :=
  drive server_cb (start server_cb (server_init ctx aio) c0) cs

/-- Run of one client context: the starting call, then one callback per
completion. -/
def client_run (ctx aio : Nat) (dly : Int) (i0 : ClientIn) (is : List ClientIn) :
    Run client_state ClientIn :=
  drive client_cb (start client_cb (client_init ctx aio dly) i0) is

/-- Number of receive completions that succeeded in a client run: the callback
found the context in state 2 and the aio result was 0. -/
def recv_successes (h : List (client_state × ClientIn)) : Nat :=
  h.countP (fun p => decide (p.1.state = 2) && decide (p.2.result = 0))

/-- No completion of a send or a receive reported an error in a client run. -/
def no_errors (h : List (client_state × ClientIn)) : Prop :=
  ∀ p ∈ h, (p.1.state = 1 ∨ p.1.state = 2) → p.2.result = 0

instance no_errors_decidable (h : List (client_state × ClientIn)) : Decidable (no_errors h) := by
  unfold no_errors
  infer_instance

/-! ## Command line -/

/-- The C library `isspace` in the C locale, on a character code. -/
def isspace (c : Char) : Bool :=
  c.toNat = 32 || (9 ≤ c.toNat && c.toNat ≤ 13)

/-- Value of the leading decimal digits of a character list, after `acc`. -/
def digits_value : List Char → Nat → Nat
  | [], acc => acc
  | c :: cs, acc =>
      if 48 ≤ c.toNat && c.toNat ≤ 57 then digits_value cs (acc * 10 + (c.toNat - 48)) else acc

/-- The C library `atoi`: leading white space, an optional sign, then decimal
digits up to the first other character; 0 if there is no digit.  The value is
the mathematical one (C leaves values outside `int` undefined). -/
def atoi (s : String) : Int :=
  match s.toList.dropWhile isspace with
  | [] => 0
  | c :: cs =>
      if c.toNat = 45 then - (digits_value cs 0 : Int)
      else if c.toNat = 43 then (digits_value cs 0 : Int)
      else (digits_value (c :: cs) 0 : Int)

/-- How `main` ends. -/
inductive MainResult where
  /-- Call `usage(argv[0])`: the usage text on stderr, then `exit(1)`. -/
  | usage (n : String)
  /-- One line on stderr, then `exit(1)`. -/
  | fatal (line : String)
  /-- Call `server(url, count)`. -/
  | server (url : String) (count : Int)
  /-- Call `client(url, count, delay)`. -/
  | client (url : String) (count : Int) (delay : Int)
  deriving DecidableEq, Repr

/-- The text `usage(n)` writes to stderr. -/
def usage_text (n : String) : String :=
  "Usage:\n" ++ "  " ++ n ++ " server <url> [<count>]\n"
    ++ "  " ++ n ++ " client <url> [<count> [<delay(ms)>]]\n"

/-- The C `main`, up to its call of `server` or `client`; `argc` is the length
of `argv`. -/
def main (argv : List String) : MainResult :=
  let argc := argv.length
  if argc < 2 then .usage (argv.getD 0 "")
  else if argv.getD 1 "" = "server" then
    if argc = 3 then .server (argv.getD 2 "") 1
    else if argc = 4 then
      if atoi (argv.getD 3 "") < 1 then .fatal "count must be positive\n"
      else .server (argv.getD 2 "") (atoi (argv.getD 3 ""))
    else .usage (argv.getD 0 "")
  else if argv.getD 1 "" = "client" then
    if argc = 3 then .client (argv.getD 2 "") 1 0
    else if argc = 4 then
      if atoi (argv.getD 3 "") < 1 then .fatal "count must be positive\n"
      else .client (argv.getD 2 "") (atoi (argv.getD 3 "")) 0
    else if argc = 5 then
      if atoi (argv.getD 3 "") < 1 then .fatal "count must be positive\n"
      else if atoi (argv.getD 4 "") < 1 then .fatal "delay must be positive\n"
      else .client (argv.getD 2 "") (atoi (argv.getD 3 "")) (atoi (argv.getD 4 ""))
    else .usage (argv.getD 0 "")
  else .usage (argv.getD 0 "")

/-- Number of worker contexts `server(url, count)` allocates, opens and starts
(`if (count < 0) count = 1;` then the loops `for (i = 0; i < count; i++)`).  -/
def server_workers (count : Int) : Nat :=
  if count < 0 then 1 else count.toNat

/-- The contexts `server(url, count)` starts when `calloc` and every transport
call succeed: `calloc` zeroes every field and the loop fills in the handles;
here context `k` gets the handles `k`. -/
def server_contexts (count : Int) : List server_state :=
  (List.range (server_workers count)).map (fun k => server_init k k)

/-- The contexts `client(url, count, delay)` starts when `calloc` and every
transport call succeed: `calloc` zeroes every field and the loop fills in `aio`
and `ctx` only, so `dly` stays 0 whatever `delay` is. -/
def client_contexts (count : Int) (_delay : Int) : List client_state :=
  (List.range (if count < 0 then 1 else count.toNat)).map (fun k => client_init k k 0)

/-- Exit status with which `main` itself ends the process: 1 after `usage` or
one of the two "must be positive" lines, none when it has called `server` or
`client` instead. -/
def exit_status : MainResult → Option Int
  | .usage _ => some 1
  | .fatal _ => some 1
  | .server _ _ => none
  | .client _ _ _ => none

/-- Whether `main` calls `server()` or `client()`. -/
def calls_worker : MainResult → Bool
  | .server _ _ => true
  | .client _ _ _ => true
  | _ => false

/-- The text `main` writes to stderr before it exits or calls a worker. -/
def stderr_text : MainResult → String
  | .usage n => usage_text n
  | .fatal line => line
  | .server _ _ => ""
  | .client _ _ _ => ""

/-- An argument vector of the wrong shape: fewer than 2 arguments, a role other
than `server` or `client`, a server invocation with argc not 3 or 4, a client
invocation with argc not 3, 4 or 5. -/
def bad_shape (argv : List String) : Prop :=
  argv.length < 2 ∨
    (argv.getD 1 "" ≠ "server" ∧ argv.getD 1 "" ≠ "client") ∨
    (argv.getD 1 "" = "server" ∧ argv.length ≠ 3 ∧ argv.length ≠ 4) ∨
    (argv.getD 1 "" = "client" ∧ argv.length ≠ 3 ∧ argv.length ≠ 4 ∧ argv.length ≠ 5)

/-- An argument vector of a right shape with a supplied worker count that
`atoi` parses to less than 1. -/
def bad_count (argv : List String) : Prop :=
  2 ≤ argv.length ∧ atoi (argv.getD 3 "") < 1 ∧
    ((argv.getD 1 "" = "server" ∧ argv.length = 4) ∨
      (argv.getD 1 "" = "client" ∧ (argv.length = 4 ∨ argv.length = 5)))

/-- A client argument vector with a good worker count and a supplied delay that
`atoi` parses to less than 1. -/
def bad_delay (argv : List String) : Prop :=
  argv.getD 1 "" = "client" ∧ argv.length = 5 ∧ ¬ atoi (argv.getD 3 "") < 1 ∧
    atoi (argv.getD 4 "") < 1

/-- An invalid argument vector: of the wrong shape, or with a supplied worker
count or delay that parses to less than 1. -/
def invalid_argv (argv : List String) : Prop :=
  bad_shape argv ∨
    ((argv.getD 1 "" = "server" ∧ argv.length = 4 ∧ atoi (argv.getD 3 "") < 1) ∨
      (argv.getD 1 "" = "client" ∧ (argv.length = 4 ∨ argv.length = 5) ∧
        atoi (argv.getD 3 "") < 1) ∨
      (argv.getD 1 "" = "client" ∧ argv.length = 5 ∧ atoi (argv.getD 4 "") < 1))

instance bad_shape_decidable (argv : List String) : Decidable (bad_shape argv) := by
  unfold bad_shape
  infer_instance

instance bad_count_decidable (argv : List String) : Decidable (bad_count argv) := by
  unfold bad_count
  infer_instance

instance bad_delay_decidable (argv : List String) : Decidable (bad_delay argv) := by
  unfold bad_delay
  infer_instance

instance invalid_argv_decidable (argv : List String) : Decidable (invalid_argv argv) := by
  unfold invalid_argv
  infer_instance

/-! ## Ownership of messages -/

/-- What a context does with the ownership of a message. -/
inductive Own where
  /-- The context takes a message: from the aio after a successful receive
  (`nng_aio_get_msg`) or from `nng_msg_alloc`. -/
  | obtained
  /-- The context hands its message to the transport with a send. -/
  | handed
  /-- The context frees its message. -/
  | freed
  deriving DecidableEq, Repr

/-- The ownership events among the calls of a trace: an allocation, a free, a
send of a message that is not NULL. -/
def own_of_trace : List Event → List Own
  | [] => []
  | .msg_alloc :: t => .obtained :: own_of_trace t
  | .msg_free _ :: t => .freed :: own_of_trace t
  | .ctx_send _ _ (some _) :: t => .handed :: own_of_trace t
  | _ :: t => own_of_trace t

/-- Ownership events of one server callback, in program order: in case 1 with a
zero result it first takes the received message from the aio. -/
def server_own (p : server_state × Completion) : List Own :=
  (if p.1.state = 1 ∧ p.2.result = 0 then [Own.obtained] else []) ++
    own_of_trace (server_cb p.1 p.2).trace

/-- Ownership events of one client callback, in program order: in case 2 with a
zero result it first takes the received reply from the aio. -/
def client_own (p : client_state × ClientIn) : List Own :=
  (if p.1.state = 2 ∧ p.2.result = 0 then [Own.obtained] else []) ++
    own_of_trace (client_cb p.1 p.2).trace

/-- Walks a sequence of ownership events, starting with a message held or not.
The walk fails (`none`) when a message is obtained while one is still held, or
handed or freed while none is held; otherwise it tells whether a message is
held at the end. -/
def ledger : Bool → List Own → Option Bool
  | held, [] => some held
  | false, .obtained :: t => ledger true t
  | true, .obtained :: _ => none
  | true, .handed :: t => ledger false t
  | true, .freed :: t => ledger false t
  | false, .handed :: _ => none
  | false, .freed :: _ => none

/-- Number of messages obtained in a sequence of ownership events. -/
def obtained_count (l : List Own) : Nat := l.count .obtained

/-- Number of messages handed to the transport or freed in a sequence of
ownership events. -/
def released_count (l : List Own) : Nat := l.count .handed + l.count .freed

/-- Ownership events of a server run, callback by callback. -/
def server_own_log (r : Run server_state Completion) : List Own :=
  r.history.flatMap server_own

/-- Ownership events of a client run, callback by callback. -/
def client_own_log (r : Run client_state ClientIn) : List Own :=
  r.history.flatMap client_own

/-! ## Run invariants -/

/-- The invariant of a server run: a live context has exactly one operation
outstanding and is in phase 1, 2 or 3; a dead one has none. -/
def server_inv (r : Run server_state Completion) : Prop :=
  (r.status = .running ∧ r.outstanding = 1 ∧
      (r.st.state = 1 ∨ r.st.state = 2 ∨ r.st.state = 3)) ∨
    (r.status ≠ .running ∧ r.outstanding = 0)

/-- The invariant of a client run: a live context has exactly one operation
outstanding and is in phase 1 or 2; a dead one has none. -/
def client_inv (r : Run client_state ClientIn) : Prop :=
  (r.status = .running ∧ r.outstanding = 1 ∧ (r.st.state = 1 ∨ r.st.state = 2)) ∨
    (r.status ≠ .running ∧ r.outstanding = 0)

/-! ## One operation per callback -/

/-- A property of runs that holds after the starting call and is kept by every
callback made while the process is alive holds throughout the run. -/
theorem drive_invariant {σ ι : Type} (cb : σ → ι → Step σ) (P : Run σ ι → Prop)
    (hstep : ∀ r i, P r → r.status = .running → P (advance cb r i)) :
    ∀ (is : List ι) (r : Run σ ι), P r → P (drive cb r is) := by
  intro is
  induction is with
  | nil => intro r hr; simpa [drive] using hr
  | cons i rest ih =>
      intro r hr
      unfold drive
      split
      · next hrun => exact ih _ (hstep r i hr hrun)
      · exact hr

/-- Operations submitted in two traces one after the other. -/
theorem submitted_append (a b : List Event) :
    submitted (a ++ b) = submitted a + submitted b := by
  simp [submitted]

/-- Neither the allocation nor `rand()` is an asynchronous operation. -/
theorem submitted_compose_calls (dly : Int) : submitted (compose_calls dly) = 0 := by
  unfold compose_calls submitted
  split_ifs <;> simp [Event.isAsync]

/-- Outcomes of a server callback in one of its four phases: `exit(1)` with
nothing submitted, or a return with exactly one operation submitted and the
phase left in 1, 2 or 3. -/
theorem server_cb_outcome (s : server_state) (c : Completion)
    (hs : s.state = 0 ∨ s.state = 1 ∨ s.state = 2 ∨ s.state = 3) :
    ((server_cb s c).status = .exited 1 ∧ submitted (server_cb s c).trace = 0) ∨
      ((server_cb s c).status = .running ∧ submitted (server_cb s c).trace = 1 ∧
        ((server_cb s c).st.state = 1 ∨ (server_cb s c).st.state = 2 ∨
          (server_cb s c).st.state = 3)) := by
  unfold server_cb
  split_ifs with h0 h1 hr h2 h3 hr3
  · simp [submitted, Event.isAsync]
  · simp [submitted, Event.isAsync]
  · split <;> simp [submitted, Event.isAsync, h1]
  · simp [submitted, Event.isAsync]
  · simp [submitted, Event.isAsync]
  · simp [submitted, Event.isAsync]
  · omega

/-- Outcomes of the compose step: `exit(1)` or a trap with nothing submitted, or
a return with exactly one operation submitted and the phase left at 1. -/
theorem client_case0_outcome (s : client_state) (i : ClientIn) :
    ((client_case0 s i).status = .exited 1 ∧ submitted (client_case0 s i).trace = 0) ∨
      ((client_case0 s i).status = .trapped ∧ submitted (client_case0 s i).trace = 0) ∨
      ((client_case0 s i).status = .running ∧ submitted (client_case0 s i).trace = 1 ∧
        (client_case0 s i).st.state = 1) := by
  rcases h : compose_dly s.dly i.rnd with _ | d <;>
    by_cases ha : i.alloc_rv = 0 <;> by_cases hp : i.append_rv = 0 <;>
    simp [client_case0, h, ha, hp, submitted_append, submitted_compose_calls] <;>
    simp [submitted, Event.isAsync]

/-- Outcomes of a client callback in one of its three phases: `exit(1)` or a
trap with nothing submitted, or a return with exactly one operation submitted
and the phase left in 1 or 2. -/
theorem client_cb_outcome (s : client_state) (i : ClientIn)
    (hs : s.state = 0 ∨ s.state = 1 ∨ s.state = 2) :
    ((client_cb s i).status = .exited 1 ∧ submitted (client_cb s i).trace = 0) ∨
      ((client_cb s i).status = .trapped ∧ submitted (client_cb s i).trace = 0) ∨
      ((client_cb s i).status = .running ∧ submitted (client_cb s i).trace = 1 ∧
        ((client_cb s i).st.state = 1 ∨ (client_cb s i).st.state = 2)) := by
  unfold client_cb
  split_ifs with h0 h1 hr h2 hr2
  · rcases client_case0_outcome s i with h | h | h
    · exact Or.inl h
    · exact Or.inr (Or.inl h)
    · exact Or.inr (Or.inr ⟨h.1, h.2.1, Or.inl h.2.2⟩)
  · simp [submitted, Event.isAsync]
  · simp [submitted, Event.isAsync]
  · simp [submitted, Event.isAsync]
  · have h := client_case0_outcome { s with msg := none, state := 0 } i
    rcases h with h | h | h
    · refine Or.inl ⟨h.1, ?_⟩
      simpa [submitted, Event.isAsync] using h.2
    · refine Or.inr (Or.inl ⟨h.1, ?_⟩)
      simpa [submitted, Event.isAsync] using h.2
    · refine Or.inr (Or.inr ⟨h.1, ?_, Or.inl h.2.2⟩)
      simpa [submitted, Event.isAsync] using h.2.1
  · omega

/-- The server invariant holds at every point of every run of a context started
in phase 0. -/
theorem server_run_inv (ctx aio : Nat) (c0 : Completion) (cs : List Completion) :
    server_inv (server_run ctx aio c0 cs) := by
  unfold server_run
  apply drive_invariant server_cb server_inv
  · intro r i hr hrun
    rcases hr with ⟨_, hout, hst⟩ | ⟨hdead, _⟩
    · have hs : r.st.state = 0 ∨ r.st.state = 1 ∨ r.st.state = 2 ∨ r.st.state = 3 :=
        Or.inr hst
      rcases server_cb_outcome r.st i hs with ⟨h1, h2⟩ | ⟨h1, h2, h3⟩
      · right
        simp [advance, h1, h2, hout]
      · left
        simp [advance, h1, h2, hout, h3]
    · exact absurd hrun hdead
  · rcases server_cb_outcome (server_init ctx aio) c0 (Or.inl rfl) with ⟨h1, h2⟩ | ⟨h1, h2, h3⟩
    · right
      simp [start, h1, h2]
    · left
      simp [start, h1, h2, h3]

/-- The client invariant holds at every point of every run of a context started
in phase 0. -/
theorem client_run_inv (ctx aio : Nat) (dly : Int) (i0 : ClientIn) (is : List ClientIn) :
    client_inv (client_run ctx aio dly i0 is) := by
  unfold client_run
  apply drive_invariant client_cb client_inv
  · intro r i hr hrun
    rcases hr with ⟨_, hout, hst⟩ | ⟨hdead, _⟩
    · have hs : r.st.state = 0 ∨ r.st.state = 1 ∨ r.st.state = 2 := Or.inr hst
      rcases client_cb_outcome r.st i hs with ⟨h1, h2⟩ | ⟨h1, h2⟩ | ⟨h1, h2, h3⟩
      · right
        simp [advance, h1, h2, hout]
      · right
        simp [advance, h1, h2, hout]
      · left
        simp [advance, h1, h2, hout, h3]
    · exact absurd hrun hdead
  · rcases client_cb_outcome (client_init ctx aio dly) i0 (Or.inl rfl) with
      ⟨h1, h2⟩ | ⟨h1, h2⟩ | ⟨h1, h2, h3⟩
    · right
      simp [start, h1, h2]
    · right
      simp [start, h1, h2]
    · left
      simp [start, h1, h2, h3]

/-- C1: a server callback in phase 0, 1, 2 or 3 and a client callback in phase
0, 1 or 2 (the nested re-entry from phase 2 included), on every input, either
ends the process (`exit(1)`, or for the client the trap of the remainder by
zero) or returns having submitted exactly one asynchronous operation; and on
every run that starts a context with one call and then makes one callback per
completion the number of outstanding operations is never above one. -/
theorem one_operation_outstanding :
    (∀ (s : server_state) (c : Completion),
        (s.state = 0 ∨ s.state = 1 ∨ s.state = 2 ∨ s.state = 3) →
        (server_cb s c).status = .exited 1 ∨
          ((server_cb s c).status = .running ∧ submitted (server_cb s c).trace = 1)) ∧
    (∀ (s : client_state) (i : ClientIn),
        (s.state = 0 ∨ s.state = 1 ∨ s.state = 2) →
        (client_cb s i).status = .exited 1 ∨ (client_cb s i).status = .trapped ∨
          ((client_cb s i).status = .running ∧ submitted (client_cb s i).trace = 1)) ∧
    (∀ (ctx aio : Nat) (c0 : Completion) (cs : List Completion),
        0 ≤ (server_run ctx aio c0 cs).outstanding ∧
          (server_run ctx aio c0 cs).outstanding ≤ 1) ∧
    (∀ (ctx aio : Nat) (dly : Int) (i0 : ClientIn) (is : List ClientIn),
        0 ≤ (client_run ctx aio dly i0 is).outstanding ∧
          (client_run ctx aio dly i0 is).outstanding ≤ 1) := by
  refine ⟨?_, ?_, ?_, ?_⟩
  · intro s c hs
    rcases server_cb_outcome s c hs with h | h
    · exact Or.inl h.1
    · exact Or.inr ⟨h.1, h.2.1⟩
  · intro s i hs
    rcases client_cb_outcome s i hs with h | h | h
    · exact Or.inl h.1
    · exact Or.inr (Or.inl h.1)
    · exact Or.inr (Or.inr ⟨h.1, h.2.1⟩)
  · intro ctx aio c0 cs
    rcases server_run_inv ctx aio c0 cs with h | h
    · omega
    · omega
  · intro ctx aio dly i0 is
    rcases client_run_inv ctx aio dly i0 is with h | h
    · omega
    · omega

/-- C1 at concrete inputs: a server receive completion carrying a 5-byte request
and a client receive completion (which re-enters the compose step) each
submit exactly one operation. -/
theorem one_operation_outstanding_witness :
    submitted (server_cb ⟨1, 7, 8, none⟩ ⟨0, [0, 0, 0, 9, 4]⟩).trace = 1 ∧
      submitted (client_cb ⟨2, 7, 8, none, 10⟩ ⟨0, [], 13, 0, 0⟩).trace = 1 := by
  constructor
  · rcases one_operation_outstanding.1 ⟨1, 7, 8, none⟩ ⟨0, [0, 0, 0, 9, 4]⟩
      (by decide) with h | h
    · exact absurd h (by decide)
    · exact h.2
  · rcases one_operation_outstanding.2.1 ⟨2, 7, 8, none, 10⟩ ⟨0, [], 13, 0, 0⟩
      (by decide) with h | h | h
    · exact absurd h (by decide)
    · exact absurd h (by decide)
    · exact h.2

/-! ## The phase cycle -/

/-- The trim fails exactly on messages shorter than 4 bytes. -/
theorem trim_short (m : Msg) (h : m.length < 4) : nng_msg_trim_u32 m = none := by
  match m, h with
  | [], _ => rfl
  | [_], _ => rfl
  | [_, _], _ => rfl
  | [_, _, _], _ => rfl
  | _ :: _ :: _ :: _ :: _, h => simp at h; omega

/-- On a message of at least 4 bytes the trim succeeds and leaves the message
without its first 4 bytes. -/
theorem trim_long (m : Msg) (h : 4 ≤ m.length) :
    ∃ d, d < 2 ^ 32 ∧ nng_msg_trim_u32 m = some (d, m.drop 4) := by
  match m, h with
  | [], h => simp at h
  | [_], h => simp at h
  | [_, _], h => simp at h
  | [_, _, _], h => simp at h
  | b3 :: b2 :: b1 :: b0 :: rest, _ =>
      refine ⟨_, ?_, rfl⟩
      have h3 := b3.isLt
      have h2 := b2.isLt
      have h1 := b1.isLt
      have h0 := b0.isLt
      omega

/-- C2: on every callback invocation that returns, the server phase goes 0 to
1, 1 to 2 on a request of at least 4 bytes and 1 to 1 on a shorter one, 2 to 3,
3 to 1, and the client phase goes 0 to 1, 1 to 2, and 2 (through the compose
step) to 1; at every callback return of a run started in phase 0 the server
phase is 1, 2 or 3 and the client phase is 1 or 2. -/
theorem phase_cycle :
    (∀ (s : server_state) (c : Completion), (server_cb s c).status = .running →
        (s.state = 0 → (server_cb s c).st.state = 1) ∧
        (s.state = 1 → 4 ≤ c.msg.length → (server_cb s c).st.state = 2) ∧
        (s.state = 1 → c.msg.length < 4 → (server_cb s c).st.state = 1) ∧
        (s.state = 2 → (server_cb s c).st.state = 3) ∧
        (s.state = 3 → (server_cb s c).st.state = 1)) ∧
    (∀ (s : client_state) (i : ClientIn), (client_cb s i).status = .running →
        (s.state = 0 → (client_cb s i).st.state = 1) ∧
        (s.state = 1 → (client_cb s i).st.state = 2) ∧
        (s.state = 2 → (client_cb s i).st.state = 1)) ∧
    (∀ (ctx aio : Nat) (c0 : Completion) (cs : List Completion),
        (server_run ctx aio c0 cs).status = .running →
        (server_run ctx aio c0 cs).st.state = 1 ∨ (server_run ctx aio c0 cs).st.state = 2 ∨
          (server_run ctx aio c0 cs).st.state = 3) ∧
    (∀ (ctx aio : Nat) (dly : Int) (i0 : ClientIn) (is : List ClientIn),
        (client_run ctx aio dly i0 is).status = .running →
        (client_run ctx aio dly i0 is).st.state = 1 ∨
          (client_run ctx aio dly i0 is).st.state = 2) := by
  refine ⟨?_, ?_, ?_, ?_⟩
  · intro s c hrun
    refine ⟨?_, ?_, ?_, ?_, ?_⟩
    · intro h0
      simp [server_cb, h0]
    · intro h1 hlen
      obtain ⟨d, _, hd⟩ := trim_long c.msg hlen
      by_cases hr : c.result = 0
      · simp [server_cb, h1, hr, hd]
      · simp [server_cb, h1, hr] at hrun
    · intro h1 hlen
      have hd := trim_short c.msg hlen
      by_cases hr : c.result = 0
      · simp [server_cb, h1, hr, hd]
      · simp [server_cb, h1, hr] at hrun
    · intro h2
      simp [server_cb, h2]
    · intro h3
      by_cases hr : c.result = 0
      · simp [server_cb, h3, hr]
      · simp [server_cb, h3, hr] at hrun
  · intro s i hrun
    refine ⟨?_, ?_, ?_⟩
    · intro h0
      rcases client_cb_outcome s i (Or.inl h0) with h | h | h
      · rw [h.1] at hrun; cases hrun
      · rw [h.1] at hrun; cases hrun
      · have hc : client_cb s i = client_case0 s i := by simp [client_cb, h0]
        rcases client_case0_outcome s i with g | g | g
        · rw [hc, g.1] at hrun; cases hrun
        · rw [hc, g.1] at hrun; cases hrun
        · rw [hc]; exact g.2.2
    · intro h1
      by_cases hr : i.result = 0
      · simp [client_cb, h1, hr]
      · simp [client_cb, h1, hr] at hrun
    · intro h2
      by_cases hr : i.result = 0
      · have hc : (client_cb s i).st = (client_case0 { s with msg := none, state := 0 } i).st ∧
            (client_cb s i).status =
              (client_case0 { s with msg := none, state := 0 } i).status := by
          simp [client_cb, h2, hr]
        rcases client_case0_outcome { s with msg := none, state := 0 } i with g | g | g
        · rw [hc.2, g.1] at hrun; cases hrun
        · rw [hc.2, g.1] at hrun; cases hrun
        · rw [hc.1]; exact g.2.2
      · simp [client_cb, h2, hr] at hrun
  · intro ctx aio c0 cs hrun
    rcases server_run_inv ctx aio c0 cs with h | h
    · exact h.2.2
    · exact absurd hrun h.1
  · intro ctx aio dly i0 is hrun
    rcases client_run_inv ctx aio dly i0 is with h | h
    · exact h.2.2
    · exact absurd hrun h.1

/-- C2 at concrete inputs: a server in phase 1 given a 4-byte request returns in
phase 2, and a client in phase 2 given a successful receive returns in
phase 1. -/
theorem phase_cycle_witness :
    (server_cb ⟨1, 7, 8, none⟩ ⟨0, [0, 0, 0, 9]⟩).st.state = 2 ∧
      (client_cb ⟨2, 7, 8, none, 0⟩ ⟨0, [], 13, 0, 0⟩).st.state = 1 :=
  ⟨(phase_cycle.1 ⟨1, 7, 8, none⟩ ⟨0, [0, 0, 0, 9]⟩ (by decide)).2.1 (by decide) (by decide),
    (phase_cycle.2.1 ⟨2, 7, 8, none, 0⟩ ⟨0, [], 13, 0, 0⟩ (by decide)).2.2 (by decide)⟩

/-! ## The server: malformed requests, the reply, the sleep -/

/-- C3: a successful receive completion that delivers a message shorter than 4
bytes to a server context in phase 1 makes the callback free that message and
submit one receive and nothing else (no sleep, no send), return without ending
the process, and leave the context in phase 1 with no pending message. -/
theorem short_request_dropped (s : server_state) (c : Completion)
    (hphase : s.state = 1) (hok : c.result = 0) (hshort : c.msg.length < 4) :
    (server_cb s c).trace = [.msg_free c.msg, .ctx_recv s.ctx s.aio] ∧
      (server_cb s c).status = .running ∧
      (server_cb s c).st = { s with msg := none } ∧
      (server_cb s c).st.state = 1 ∧
      (server_cb s c).st.msg = none ∧
      submitted (server_cb s c).trace = 1 := by
  have hd := trim_short c.msg hshort
  simp [server_cb, hphase, hok, hd, submitted, Event.isAsync]

/-- C3 at the 0-length and the 2-byte message. -/
theorem short_request_dropped_witness :
    (server_cb ⟨1, 7, 8, none⟩ ⟨0, []⟩).trace = [.msg_free [], .ctx_recv 7 8] ∧
      (server_cb ⟨1, 7, 8, none⟩ ⟨0, [1, 2]⟩).trace = [.msg_free [1, 2], .ctx_recv 7 8] :=
  ⟨(short_request_dropped ⟨1, 7, 8, none⟩ ⟨0, []⟩ rfl rfl (by decide)).1,
    (short_request_dropped ⟨1, 7, 8, none⟩ ⟨0, [1, 2]⟩ rfl rfl (by decide)).1⟩

/-- C4: after a successful receive completion has delivered a request of at
least 4 bytes to a server context in phase 1, the callback returns in phase 2,
and the next callback (the sleep completion), whatever result and message the
aio holds, returns having submitted one send that hands the transport the
request without its first 4 bytes, and nothing else. -/
theorem reply_is_request_tail (s : server_state) (c sleep_done : Completion)
    (hphase : s.state = 1) (hok : c.result = 0) (hlong : 4 ≤ c.msg.length) :
    (server_cb s c).status = .running ∧
      (server_cb s c).st.state = 2 ∧
      (server_cb (server_cb s c).st sleep_done).trace =
        [.ctx_send s.ctx s.aio (some (c.msg.drop 4))] ∧
      (server_cb (server_cb s c).st sleep_done).status = .running := by
  obtain ⟨d, _, hd⟩ := trim_long c.msg hlong
  simp [server_cb, hphase, hok, hd]

/-- C4 at a 6-byte request and a sleep completion with a non-zero result. -/
theorem reply_is_request_tail_witness :
    (server_cb (server_cb ⟨1, 7, 8, none⟩ ⟨0, [0, 0, 0, 9, 4, 5]⟩).st ⟨12, []⟩).trace =
      [.ctx_send 7 8 (some [4, 5])] :=
  (reply_is_request_tail ⟨1, 7, 8, none⟩ ⟨0, [0, 0, 0, 9, 4, 5]⟩ ⟨12, []⟩ rfl rfl
    (by decide)).2.2.1

/-- A value below 2^31 is converted to itself. -/
theorem to_nng_duration_small (d : Nat) (h : d < 2 ^ 31) : to_nng_duration d = (d : Int) := by
  unfold to_nng_duration
  split_ifs <;> omega

/-- A 32-bit value of 2^31 or more is converted to itself minus 2^32. -/
theorem to_nng_duration_large (d : Nat) (h : 2 ^ 31 ≤ d) (h32 : d < 2 ^ 32) :
    to_nng_duration d = (d : Int) - 2 ^ 32 := by
  unfold to_nng_duration
  split_ifs <;> omega

/-- The sleep submitted for a request whose delay field is below 2^31 has that
delay as its duration. -/
theorem sleep_duration_small (s : server_state) (c : Completion) (d : Nat) (body : Msg)
    (hphase : s.state = 1) (hok : c.result = 0)
    (hreq : nng_msg_trim_u32 c.msg = some (d, body)) (hd : d < 2 ^ 31) :
    (server_cb s c).trace = [.sleep_aio (d : Int) s.aio] := by
  simp [server_cb, hphase, hok, hreq, to_nng_duration_small d hd]

/-- The sleep submitted for a request whose delay field is 2^31 or more has a
negative duration, the delay minus 2^32. -/
theorem sleep_duration_large (s : server_state) (c : Completion) (d : Nat) (body : Msg)
    (hphase : s.state = 1) (hok : c.result = 0)
    (hreq : nng_msg_trim_u32 c.msg = some (d, body)) (hd : 2 ^ 31 ≤ d) (hd32 : d < 2 ^ 32) :
    (server_cb s c).trace = [.sleep_aio ((d : Int) - 2 ^ 32) s.aio] := by
  simp [server_cb, hphase, hok, hreq, to_nng_duration_large d hd hd32]

/-- C5, at the request `80 00 00 00`: the delay field decodes to 2147483648 and
the server callback submits a sleep whose duration, as `nng_sleep_aio` receives
it, is -2147483648, not the decoded delay. -/
theorem sleep_duration_wraps :
    nng_msg_trim_u32 [128, 0, 0, 0] = some (2147483648, []) ∧
      (server_cb ⟨1, 7, 8, none⟩ ⟨0, [128, 0, 0, 0]⟩).trace = [.sleep_aio (-2147483648) 8] ∧
      (server_cb ⟨1, 7, 8, none⟩ ⟨0, [128, 0, 0, 0]⟩).trace ≠ [.sleep_aio 2147483648 8] := by
  refine ⟨by decide, by decide, by decide⟩

/-! ## The client: the composed delay -/

/-- The big-endian octets of a 32-bit value decode to that value. -/
theorem trim_be32 (d : Nat) (hd : d < 2 ^ 32) : nng_msg_trim_u32 (be32 d) = some (d, []) := by
  simp only [be32, nng_msg_trim_u32, octet, Option.some.injEq, Prod.mk.injEq, and_true]
  norm_num
  omega

/-- For a maximum delay of 2 or more and a non-negative `rand()` the delay
expression is defined and its value lies in `[dly / 2, dly)`. -/
theorem compose_dly_in_range (dly rnd : Int) (hdly : 2 ≤ dly) (hrnd : 0 ≤ rnd) :
    ∃ d, compose_dly dly rnd = some d ∧ dly / 2 ≤ d ∧ d < dly := by
  have hq : dly.tdiv 2 = dly / 2 := Int.tdiv_eq_ediv (by omega) (by decide)
  have hpos : 0 < dly / 2 := by omega
  have hm : rnd.tmod (dly / 2) = rnd % (dly / 2) := Int.tmod_eq_emod hrnd (by omega)
  have h1 : 0 ≤ rnd % (dly / 2) := Int.emod_nonneg _ (by omega)
  have h2 : rnd % (dly / 2) < dly / 2 := Int.emod_lt_of_pos _ hpos
  refine ⟨rnd % (dly / 2) + dly / 2, ?_, by omega, by omega⟩
  have hne : dly ≠ 0 := by omega
  have hq0 : dly / 2 ≠ 0 := by omega
  simp [compose_dly, hne, hq, hq0, hm]

/-- Where the delay expression is defined, the allocation and the append succeed
and `dly` fits an `int`, the compose step sends the 4 big-endian octets of a
delay in `[dly / 2, dly)`, which the server's trim decodes to that delay. -/
theorem compose_request_in_range (s : client_state) (i : ClientIn)
    (hdly : 2 ≤ s.dly) (hint : s.dly < 2 ^ 31) (hrnd : 0 ≤ i.rnd)
    (ha : i.alloc_rv = 0) (hp : i.append_rv = 0) :
    ∃ d : Nat, s.dly / 2 ≤ (d : Int) ∧ (d : Int) < s.dly ∧
      (client_case0 s i).status = .running ∧
      (client_case0 s i).trace =
        [.msg_alloc, .rand, .ctx_send s.ctx s.aio (some (be32 d))] ∧
      nng_msg_trim_u32 (be32 d) = some (d, []) := by
  obtain ⟨v, hv, hlo, hhi⟩ := compose_dly_in_range s.dly i.rnd hdly hrnd
  have hne : s.dly ≠ 0 := by omega
  have hu : to_uint32 v = v.toNat := by
    unfold to_uint32
    congr 1
    omega
  refine ⟨v.toNat, by omega, by omega, ?_, ?_, trim_be32 _ (by omega)⟩
  · simp [client_case0, ha, hp, hv]
  · simp [client_case0, ha, hp, hv, compose_calls, hne, nng_msg_append_u32, hu]

/-- C6, at `dly = 1`: `s->dly != 0` holds and `s->dly / 2` is 0, so the compose
step evaluates `rand() % 0`; whatever `rand()` returns, no delay is computed,
the callback does not return and no request is encoded or sent. -/
theorem compose_traps_at_one (rnd : Int) :
    compose_dly 1 rnd = none ∧
      (client_cb ⟨0, 7, 8, none, 1⟩ ⟨0, [], rnd, 0, 0⟩).status = .trapped ∧
      (client_cb ⟨0, 7, 8, none, 1⟩ ⟨0, [], rnd, 0, 0⟩).trace = [.msg_alloc, .rand] := by
  have hq : (1 : Int).tdiv 2 = 0 := by decide
  have h : compose_dly 1 rnd = none := by
    simp [compose_dly, hq]
  refine ⟨h, ?_, ?_⟩
  · simp [client_cb, client_case0, h]
  · simp [client_cb, client_case0, h, compose_calls]

/-! ## The codec round trip -/

/-- C7: for every d below 2^32, appending the u32 field d to the empty message
gives the 4 big-endian octets of d and nothing more; the trim of that message
succeeds, returns d and leaves no bytes; and a server context that receives it
sleeps and then sends the empty message as its reply. -/
theorem codec_round_trip (d : Nat) (hd : d < 2 ^ 32) :
    nng_msg_append_u32 [] d = be32 d ∧
      (nng_msg_append_u32 [] d).length = 4 ∧
      nng_msg_trim_u32 (nng_msg_append_u32 [] d) = some (d, []) ∧
      (∀ (s : server_state) (sleep_done : Completion), s.state = 1 →
        (server_cb s ⟨0, nng_msg_append_u32 [] d⟩).trace =
            [.sleep_aio (to_nng_duration d) s.aio] ∧
          (server_cb s ⟨0, nng_msg_append_u32 [] d⟩).st.msg = some [] ∧
          (server_cb (server_cb s ⟨0, nng_msg_append_u32 [] d⟩).st sleep_done).trace =
            [.ctx_send s.ctx s.aio (some [])]) := by
  have happ : nng_msg_append_u32 [] d = be32 d := by simp [nng_msg_append_u32]
  have htrim := trim_be32 d hd
  refine ⟨happ, by simp [happ, be32], by rw [happ]; exact htrim, ?_⟩
  intro s sleep_done hs
  simp [server_cb, hs, happ, htrim]

/-- C7 at d = 300: the request is `00 00 01 2c` and decodes to 300 with nothing
left. -/
theorem codec_round_trip_witness :
    nng_msg_append_u32 [] 300 = [0, 0, 1, 44] ∧
      nng_msg_trim_u32 (nng_msg_append_u32 [] 300) = some (300, []) :=
  ⟨(codec_round_trip 300 (by decide)).1.trans (by decide),
    (codec_round_trip 300 (by decide)).2.2.1⟩

/-! ## Completion errors -/

/-- A non-zero completion result in server phase 1 or 3 or client phase 1 or 2
makes the callback write one line to stderr and call `exit(1)`, with the
context untouched, nothing submitted and nothing written to stdout. -/
theorem completion_error_fatal :
    (∀ (s : server_state) (c : Completion), (s.state = 1 ∨ s.state = 3) → c.result ≠ 0 →
        (server_cb s c).status = .exited 1 ∧ (server_cb s c).st = s ∧
          submitted (server_cb s c).trace = 0 ∧
          (server_cb s c).trace =
            [.stderr (if s.state = 1 then "ctx_recv" else "ctx_send") c.result]) ∧
    (∀ (s : client_state) (i : ClientIn), (s.state = 1 ∨ s.state = 2) → i.result ≠ 0 →
        (client_cb s i).status = .exited 1 ∧ (client_cb s i).st = s ∧
          submitted (client_cb s i).trace = 0 ∧ stdout_writes (client_cb s i).trace = [] ∧
          (client_cb s i).trace = [.stderr (if s.state = 1 then "send" else "recv") i.result]) := by
  constructor
  · intro s c hs hr
    rcases hs with h | h <;> simp [server_cb, h, hr, submitted, Event.isAsync]
  · intro s i hs hr
    rcases hs with h | h <;>
      simp [client_cb, h, hr, submitted, Event.isAsync, stdout_writes]

/-- A zero completion result in server phase 1 or 3 or client phase 1 makes the
callback return; in client phase 2 the callback returns as well when the
allocation and the append succeed and the delay expression is defined. -/
theorem zero_result_returns :
    (∀ (s : server_state) (c : Completion), (s.state = 1 ∨ s.state = 3) → c.result = 0 →
        (server_cb s c).status = .running) ∧
    (∀ (s : client_state) (i : ClientIn), s.state = 1 → i.result = 0 →
        (client_cb s i).status = .running) ∧
    (∀ (s : client_state) (i : ClientIn), s.state = 2 → i.result = 0 →
        i.alloc_rv = 0 → i.append_rv = 0 → (s.dly = 0 ∨ s.dly.tdiv 2 ≠ 0) →
        (client_cb s i).status = .running) := by
  refine ⟨?_, ?_, ?_⟩
  · intro s c hs hr
    rcases hs with h | h
    · rcases hm : nng_msg_trim_u32 c.msg with _ | ⟨d, body⟩ <;> simp [server_cb, h, hr, hm]
    · simp [server_cb, h, hr]
  · intro s i hs hr
    simp [client_cb, hs, hr]
  · intro s i hs hr ha hp hd
    rcases hd with hd | hd
    · simp [client_cb, hs, hr, client_case0, ha, hp, compose_dly, hd]
    · by_cases h0 : s.dly = 0
      · simp [client_cb, hs, hr, client_case0, ha, hp, compose_dly, h0]
      · simp [client_cb, hs, hr, client_case0, ha, hp, compose_dly, h0, hd]

/-- C8, at a client context in phase 2 with `dly = 1`: the receive completion
reports result 0 and the allocation succeeds, yet the callback ends the process:
after freeing the reply and writing the marker it re-enters the compose step,
which evaluates `rand() % 0`. -/
theorem zero_result_trap (rnd : Int) :
    (client_cb ⟨2, 7, 8, none, 1⟩ ⟨0, [], rnd, 0, 0⟩).status = .trapped ∧
      (client_cb ⟨2, 7, 8, none, 1⟩ ⟨0, [], rnd, 0, 0⟩).trace =
        [.msg_free [], .stdout ".", .fflush, .msg_alloc, .rand] := by
  have hq : (1 : Int).tdiv 2 = 0 := by decide
  have h : compose_dly 1 rnd = none := by
    simp [compose_dly, hq]
  constructor
  · simp [client_cb, client_case0, h]
  · simp [client_cb, client_case0, h, compose_calls]

/-! ## Progress markers -/

/-- Texts written to stdout in two traces one after the other. -/
theorem stdout_writes_append (a b : List Event) :
    stdout_writes (a ++ b) = stdout_writes a ++ stdout_writes b := by
  induction a with
  | nil => rfl
  | cons e t ih => cases e <;> simp [stdout_writes, ih]

/-- The compose step writes nothing to stdout. -/
theorem stdout_writes_case0 (s : client_state) (i : ClientIn) :
    stdout_writes (client_case0 s i).trace = [] := by
  have hc : stdout_writes (compose_calls s.dly) = [] := by
    unfold compose_calls
    split_ifs <;> rfl
  rcases h : compose_dly s.dly i.rnd with _ | d <;>
    by_cases ha : i.alloc_rv = 0 <;> by_cases hp : i.append_rv = 0 <;>
    simp [client_case0, h, ha, hp, stdout_writes_append, hc, stdout_writes]

/-- A client callback writes the marker once on a successful receive completion
and writes nothing otherwise. -/
theorem stdout_writes_client_cb (s : client_state) (i : ClientIn) :
    stdout_writes (client_cb s i).trace =
      if s.state = 2 ∧ i.result = 0 then ["."] else [] := by
  by_cases h2 : s.state = 2
  · by_cases hr : i.result = 0
    · have h := stdout_writes_case0 { s with msg := none, state := 0 } i
      simp [client_cb, h2, hr, stdout_writes, h]
    · simp [client_cb, h2, hr, stdout_writes]
  · by_cases h0 : s.state = 0
    · simp [client_cb, h0, stdout_writes_case0]
    · by_cases h1 : s.state = 1
      · by_cases hr : i.result = 0 <;> simp [client_cb, h1, hr, stdout_writes]
      · simp [client_cb, h0, h1, h2, stdout_writes]

/-- At every point of every client run the texts written to stdout are one
marker per successful receive completion so far. -/
theorem client_run_markers (ctx aio : Nat) (dly : Int) (i0 : ClientIn) (is : List ClientIn) :
    stdout_writes (client_run ctx aio dly i0 is).trace =
      List.replicate (recv_successes (client_run ctx aio dly i0 is).history) "." := by
  unfold client_run
  apply drive_invariant client_cb
    (fun r => stdout_writes r.trace = List.replicate (recv_successes r.history) ".")
  · intro r i hr _
    simp only [advance, stdout_writes_append, hr, stdout_writes_client_cb, recv_successes,
      List.countP_append, List.replicate_add]
    by_cases h : r.st.state = 2 ∧ i.result = 0
    · simp [h, List.countP_cons]
    · have h2 : ¬ (r.st.state = 2 ∧ i.result = 0) := h
      simp only [h, if_false, List.append_nil]
      rw [not_and] at h2
      by_cases hs : r.st.state = 2
      · simp [List.countP_cons, hs, h2 hs]
      · simp [List.countP_cons, hs]
  · simp only [start, stdout_writes_client_cb, recv_successes, client_init]
    simp [List.countP_cons]

/-- C9: in every run of one client context in which exactly N receive
completions succeed and no completion reports an error, the texts written to
stdout are exactly N markers "." and nothing else; a successful receive
completion writes exactly one marker, and the compose step and the send
completion write none. -/
theorem progress_markers :
    (∀ (N ctx aio : Nat) (dly : Int) (i0 : ClientIn) (is : List ClientIn),
        no_errors (client_run ctx aio dly i0 is).history →
        recv_successes (client_run ctx aio dly i0 is).history = N →
        stdout_writes (client_run ctx aio dly i0 is).trace = List.replicate N ".") ∧
    (∀ (s : client_state) (i : ClientIn), s.state = 2 → i.result = 0 →
        stdout_writes (client_cb s i).trace = ["."]) ∧
    (∀ (s : client_state) (i : ClientIn), (s.state = 0 ∨ s.state = 1) →
        stdout_writes (client_cb s i).trace = []) := by
  refine ⟨?_, ?_, ?_⟩
  · intro N ctx aio dly i0 is _ hN
    rw [← hN]
    exact client_run_markers ctx aio dly i0 is
  · intro s i hs hr
    simp [stdout_writes_client_cb, hs, hr]
  · intro s i hs
    have h2 : s.state ≠ 2 := by omega
    simp [stdout_writes_client_cb, h2]

/-- C9 on a run of two round trips with `dly = 0`: the starting call, then a
send and a receive completion twice over, all with result 0; two markers are
written. -/
theorem progress_markers_witness :
    stdout_writes (client_run 7 8 0 ⟨0, [], 0, 0, 0⟩
      [⟨0, [], 0, 0, 0⟩, ⟨0, [], 0, 0, 0⟩, ⟨0, [], 0, 0, 0⟩, ⟨0, [], 0, 0, 0⟩]).trace =
        [".", "."] :=
  progress_markers.1 2 7 8 0 ⟨0, [], 0, 0, 0⟩
    [⟨0, [], 0, 0, 0⟩, ⟨0, [], 0, 0, 0⟩, ⟨0, [], 0, 0, 0⟩, ⟨0, [], 0, 0, 0⟩]
    (by decide) (by decide)

/-! ## The default worker count of the server -/

/-- C10, at `argv = [n, "server", url]` (argc = 3): `main` calls
`server(url, 1)`, and `server` then allocates and starts one context, not
1024. -/
theorem server_default_count_is_one (n url : String) :
    main [n, "server", url] = .server url 1 ∧
      server_workers 1 = 1 ∧
      (server_contexts 1).length = 1 ∧
      main [n, "server", url] ≠ .server url 1024 := by
  have h : main [n, "server", url] = .server url 1 := by
    simp [main]
  refine ⟨h, by decide, by decide, ?_⟩
  rw [h]
  simp

/-! ## The command line of the client, and invalid command lines -/

/-- What `main` does on each shape of a client command line: with argc 3 it calls
`client(url, 1, 0)`, with argc 4 and a count of at least 1 it calls
`client(url, count, 0)`, with argc 5 and count and delay of at least 1 it calls
`client(url, count, delay)`. -/
theorem main_client_dispatch (n url a b : String) :
    main [n, "client", url] = .client url 1 0 ∧
      (1 ≤ atoi a → main [n, "client", url, a] = .client url (atoi a) 0) ∧
      (1 ≤ atoi a → 1 ≤ atoi b →
        main [n, "client", url, a, b] = .client url (atoi a) (atoi b)) := by
  refine ⟨by simp [main], ?_, ?_⟩
  · intro ha
    have h : ¬ atoi a < 1 := by omega
    simp [main, h]
  · intro ha hb
    have h : ¬ atoi a < 1 := by omega
    have h2 : ¬ atoi b < 1 := by omega
    simp [main, h, h2]

/-- Every context `client(url, count, delay)` starts has `dly = 0`, and there are
`count` of them when `count` is not negative. -/
theorem client_contexts_dly (count delay : Int) :
    (∀ s ∈ client_contexts count delay, s.dly = 0 ∧ s.state = 0 ∧ s.msg = none) ∧
      (0 ≤ count → ((client_contexts count delay).length : Int) = count) := by
  constructor
  · intro s hs
    simp only [client_contexts, List.mem_map] at hs
    obtain ⟨k, _, rfl⟩ := hs
    simp [client_init]
  · intro h
    have hc : ¬ count < 0 := by omega
    simp only [client_contexts, hc, if_false, List.length_map, List.length_range]
    omega

/-- C11, at `argv = [n, "client", url, "2", "100"]` (argc = 5): `main` calls
`client(url, 2, 100)`, and `client` starts two contexts whose `dly` is 0, not
100, because it never stores `delay` in a context. -/
theorem client_delay_dropped (n url : String) :
    main [n, "client", url, "2", "100"] = .client url 2 100 ∧
      client_contexts 2 100 = [client_init 0 0 0, client_init 1 1 0] ∧
      (∀ s ∈ client_contexts 2 100, s.dly = 0 ∧ s.dly ≠ 100) := by
  have ha : atoi "2" = 2 := by decide
  have hb : atoi "100" = 100 := by decide
  refine ⟨?_, by decide, ?_⟩
  · have h := (main_client_dispatch n url "2" "100").2.2
    rw [ha, hb] at h
    exact h (by decide) (by decide)
  · intro s hs
    have h := (client_contexts_dly 2 100).1 s hs
    exact ⟨h.1, by rw [h.1]; decide⟩

/-- What `main` does on each kind of invalid argument vector: `usage` on a wrong
shape, the line "count must be positive" on a bad count, the line "delay must
be positive" on a bad delay after a good count. -/
theorem main_invalid_cases (argv : List String) :
    (bad_shape argv → main argv = .usage (argv.getD 0 "")) ∧
      (bad_count argv → main argv = .fatal "count must be positive\n") ∧
      (bad_delay argv → main argv = .fatal "delay must be positive\n") := by
  refine ⟨?_, ?_, ?_⟩
  · intro h
    rcases h with h | ⟨h1, h2⟩ | ⟨h1, h3, h4⟩ | ⟨h1, h3, h4, h5⟩
    · simp [main, h]
    · by_cases hl : argv.length < 2 <;> simp_all [main]
    · by_cases hl : argv.length < 2 <;> simp_all [main]
    · by_cases hl : argv.length < 2 <;> simp_all [main]
  · intro h
    obtain ⟨hl, ha, h⟩ := h
    have hl2 : ¬ argv.length < 2 := by omega
    rcases h with ⟨h1, h4⟩ | ⟨h1, h4 | h5⟩ <;> simp_all [main]
  · intro h
    obtain ⟨h1, h5, ha, hb⟩ := h
    simp_all [main]

/-- An invalid argument vector has a wrong shape, a bad count, or a bad delay
after a good count. -/
theorem invalid_argv_cases (argv : List String) (h : invalid_argv argv) :
    bad_shape argv ∨ bad_count argv ∨ bad_delay argv := by
  by_cases hs : bad_shape argv
  · exact Or.inl hs
  · have hl : 2 ≤ argv.length := by
      by_contra hc
      exact hs (Or.inl (by omega))
    rcases h with h | ⟨h1, h4, ha⟩ | ⟨h1, h45, ha⟩ | ⟨h1, h5, hb⟩
    · exact absurd h hs
    · exact Or.inr (Or.inl ⟨hl, ha, Or.inl ⟨h1, h4⟩⟩)
    · exact Or.inr (Or.inl ⟨hl, ha, Or.inr ⟨h1, h45⟩⟩)
    · by_cases ha : atoi (argv.getD 3 "") < 1
      · exact Or.inr (Or.inl ⟨hl, ha, Or.inr ⟨h1, Or.inr h5⟩⟩)
      · exact Or.inr (Or.inr ⟨h1, h5, ha, hb⟩)

/-- C12: on every invalid argument vector (fewer than 2 arguments, a role other
than `server` or `client`, a server invocation with argc not in {3,4}, a client
invocation with argc not in {3,4,5}, a supplied count or delay that `atoi`
parses to less than 1) `main` exits with status 1 and calls neither `server()`
nor `client()`. -/
theorem invalid_argv_exits (argv : List String) (h : invalid_argv argv) :
    exit_status (main argv) = some 1 ∧ calls_worker (main argv) = false ∧
      (∀ url count, main argv ≠ .server url count) ∧
      (∀ url count delay, main argv ≠ .client url count delay) := by
  have hc := main_invalid_cases argv
  rcases invalid_argv_cases argv h with h | h | h
  · rw [hc.1 h]; simp [exit_status, calls_worker]
  · rw [hc.2.1 h]; simp [exit_status, calls_worker]
  · rw [hc.2.2 h]; simp [exit_status, calls_worker]

/-- C12 on a server command line whose count is "0" and on a command line with
the role "serve". -/
theorem invalid_argv_exits_witness :
    exit_status (main ["nng-loadtest", "server", "tcp://127.0.0.1:5555", "0"]) = some 1 ∧
      exit_status (main ["nng-loadtest", "serve", "tcp://127.0.0.1:5555"]) = some 1 :=
  ⟨(invalid_argv_exits ["nng-loadtest", "server", "tcp://127.0.0.1:5555", "0"] (by decide)).1,
    (invalid_argv_exits ["nng-loadtest", "serve", "tcp://127.0.0.1:5555"] (by decide)).1⟩

/-- C13 fails on `server <url> 0`, an argument vector whose only defect is the
count: the text on stderr is the line "count must be positive", not the usage
text. -/
theorem bad_value_not_usage :
    invalid_argv ["nng-loadtest", "server", "tcp://127.0.0.1:5555", "0"] ∧
      stderr_text (main ["nng-loadtest", "server", "tcp://127.0.0.1:5555", "0"]) =
        "count must be positive\n" ∧
      stderr_text (main ["nng-loadtest", "server", "tcp://127.0.0.1:5555", "0"]) ≠
        usage_text "nng-loadtest" := by
  refine ⟨by decide, by decide, by decide⟩

/-- C13 as amended: on every invalid argument vector the text on stderr is the
usage text of `usage(argv[0])` when the shape is wrong, the line "count must be
positive" when a supplied count parses to less than 1, and the line "delay must
be positive" when the count is good and a supplied delay parses to less
than 1; one of the three is the case. -/
theorem invalid_argv_stderr (argv : List String) (h : invalid_argv argv) :
    (bad_shape argv ∧ stderr_text (main argv) = usage_text (argv.getD 0 "")) ∨
      (bad_count argv ∧ stderr_text (main argv) = "count must be positive\n") ∨
      (bad_delay argv ∧ stderr_text (main argv) = "delay must be positive\n") := by
  have hc := main_invalid_cases argv
  rcases invalid_argv_cases argv h with h | h | h
  · exact Or.inl ⟨h, by rw [hc.1 h]; rfl⟩
  · exact Or.inr (Or.inl ⟨h, by rw [hc.2.1 h]; rfl⟩)
  · exact Or.inr (Or.inr ⟨h, by rw [hc.2.2 h]; rfl⟩)

/-- C13 as amended, on a client command line with one argument too many
(argc = 6): the usage text is written. -/
theorem invalid_argv_stderr_witness :
    stderr_text (main ["nng-loadtest", "client", "u", "1", "2", "3"]) =
      usage_text "nng-loadtest" := by
  rcases invalid_argv_stderr ["nng-loadtest", "client", "u", "1", "2", "3"] (by decide) with
    h | h | h
  · exact h.2
  · exact absurd h.1 (by decide)
  · exact absurd h.1 (by decide)

/-! ## The delay chosen by the compose step -/

/-- C15: a client context in phase 0 with `dly = 0` chooses delay 0 whatever
`rand()` would return and does not call `rand()`; every request it sends is the
4 octets `00 00 00 00`, and it sends one whenever the allocation and the append
succeed. -/
theorem zero_delay_compose (s : client_state) (i : ClientIn)
    (hphase : s.state = 0) (hdly : s.dly = 0) :
    compose_dly s.dly i.rnd = some 0 ∧
      Event.rand ∉ (client_cb s i).trace ∧
      (∀ c a m, Event.ctx_send c a m ∈ (client_cb s i).trace → m = some [0, 0, 0, 0]) ∧
      (i.alloc_rv = 0 → i.append_rv = 0 →
        (client_cb s i).status = .running ∧
          (client_cb s i).trace = [.msg_alloc, .ctx_send s.ctx s.aio (some [0, 0, 0, 0])]) := by
  have hc : compose_dly 0 i.rnd = some 0 := by simp [compose_dly]
  have hz : nng_msg_append_u32 [] (to_uint32 0) = [0, 0, 0, 0] := by decide
  refine ⟨by rw [hdly]; exact hc, ?_, ?_, ?_⟩
  · by_cases ha : i.alloc_rv = 0 <;> by_cases hp : i.append_rv = 0 <;>
      simp [client_cb, hphase, client_case0, hc, ha, hp, compose_calls, hdly]
  · intro c a m
    by_cases ha : i.alloc_rv = 0 <;> by_cases hp : i.append_rv = 0 <;>
      simp [client_cb, hphase, client_case0, hc, ha, hp, compose_calls, hdly, hz]
  · intro ha hp
    simp [client_cb, hphase, client_case0, hc, ha, hp, compose_calls, hdly, hz]

/-- C15 on a context with `dly = 0` and two different values of `rand()`: the
same request `00 00 00 00` is sent. -/
theorem zero_delay_compose_witness :
    (client_cb ⟨0, 7, 8, none, 0⟩ ⟨0, [], 12345, 0, 0⟩).trace =
        [.msg_alloc, .ctx_send 7 8 (some [0, 0, 0, 0])] ∧
      (client_cb ⟨0, 7, 8, none, 0⟩ ⟨0, [], 99, 0, 0⟩).trace =
        [.msg_alloc, .ctx_send 7 8 (some [0, 0, 0, 0])] :=
  ⟨((zero_delay_compose ⟨0, 7, 8, none, 0⟩ ⟨0, [], 12345, 0, 0⟩ rfl rfl).2.2.2 rfl rfl).2,
    ((zero_delay_compose ⟨0, 7, 8, none, 0⟩ ⟨0, [], 99, 0, 0⟩ rfl rfl).2.2.2 rfl rfl).2⟩

/-- C16 fails at `maxDelay = 3`, `v = 2`: 2 lies in `[3 / 2, 3)`, yet for every
non-negative `rand()` the delay expression is `rand() % 1 + 1 = 1`, never 2. -/
theorem odd_delay_top_unreachable :
    (3 : Int) / 2 ≤ 2 ∧ (2 : Int) < 3 ∧
      ¬ ∃ rnd : Int, 0 ≤ rnd ∧ compose_dly 3 rnd = some 2 := by
  refine ⟨by decide, by decide, ?_⟩
  rintro ⟨rnd, _, h⟩
  have hq : (3 : Int).tdiv 2 = 1 := by decide
  simp [compose_dly, hq] at h

/-- C16 as amended: for every maximum delay of 2 or more, every value v with
`dly / 2 ≤ v < 2 * (dly / 2)` is chosen for some non-negative `rand()` (one
below `dly / 2`), and no other value is chosen for any non-negative `rand()`;
for an even `dly` these v are all of `[dly / 2, dly)`, for an odd one all but
`dly - 1`. -/
theorem compose_dly_reachable (dly v : Int) (hdly : 2 ≤ dly) :
    ((dly / 2 ≤ v ∧ v < 2 * (dly / 2)) ↔
        ∃ rnd : Int, 0 ≤ rnd ∧ rnd < dly / 2 ∧ compose_dly dly rnd = some v) ∧
      ((∃ rnd : Int, 0 ≤ rnd ∧ compose_dly dly rnd = some v) →
        dly / 2 ≤ v ∧ v < 2 * (dly / 2)) ∧
      (dly % 2 = 0 → 2 * (dly / 2) = dly) ∧
      (dly % 2 = 1 → 2 * (dly / 2) = dly - 1) := by
  have hq : dly.tdiv 2 = dly / 2 := Int.tdiv_eq_ediv (by omega) (by decide)
  have hpos : 0 < dly / 2 := by omega
  have hne : dly ≠ 0 := by omega
  have hq0 : dly / 2 ≠ 0 := by omega
  have hval : ∀ rnd : Int, 0 ≤ rnd →
      compose_dly dly rnd = some (rnd % (dly / 2) + dly / 2) := by
    intro rnd hr
    have hm : rnd.tmod (dly / 2) = rnd % (dly / 2) := Int.tmod_eq_emod hr (by omega)
    simp [compose_dly, hne, hq, hq0, hm]
  have hback : (∃ rnd : Int, 0 ≤ rnd ∧ compose_dly dly rnd = some v) →
      dly / 2 ≤ v ∧ v < 2 * (dly / 2) := by
    rintro ⟨rnd, hr, h⟩
    rw [hval rnd hr] at h
    have hv : rnd % (dly / 2) + dly / 2 = v := by simpa using h
    have h1 : 0 ≤ rnd % (dly / 2) := Int.emod_nonneg _ hq0
    have h2 : rnd % (dly / 2) < dly / 2 := Int.emod_lt_of_pos _ hpos
    omega
  refine ⟨⟨?_, ?_⟩, hback, by omega, by omega⟩
  · rintro ⟨hlo, hhi⟩
    refine ⟨v - dly / 2, by omega, by omega, ?_⟩
    rw [hval _ (by omega)]
    have hm : (v - dly / 2) % (dly / 2) = v - dly / 2 :=
      Int.emod_eq_of_lt (by omega) (by omega)
    rw [hm]
    congr 1
    omega
  · rintro ⟨rnd, hr, _, h⟩
    exact hback ⟨rnd, hr, h⟩

/-- C16 as amended, at `dly = 10`, `v = 7`: `rand() = 2` gives 7. -/
theorem compose_dly_reachable_witness :
    ∃ rnd : Int, 0 ≤ rnd ∧ rnd < 10 / 2 ∧ compose_dly 10 rnd = some 7 :=
  (compose_dly_reachable 10 7 (by decide)).1.mp ⟨by decide, by decide⟩

/-- For a maximum delay from 2 up to `INT_MAX` and a non-negative `rand()` the
divisor `dly / 2` is not zero and the quotient, the remainder and the sum all
lie in the range of a 32-bit `int`. -/
theorem compose_dly_no_overflow (dly rnd : Int) (hdly : 2 ≤ dly) (hint : dly < 2 ^ 31)
    (hrnd : 0 ≤ rnd) :
    dly.tdiv 2 ≠ 0 ∧
      (0 ≤ dly.tdiv 2 ∧ dly.tdiv 2 < 2 ^ 31) ∧
      (0 ≤ rnd.tmod (dly.tdiv 2) ∧ rnd.tmod (dly.tdiv 2) < 2 ^ 31) ∧
      (0 ≤ rnd.tmod (dly.tdiv 2) + dly.tdiv 2 ∧
        rnd.tmod (dly.tdiv 2) + dly.tdiv 2 < 2 ^ 31) := by
  have hq : dly.tdiv 2 = dly / 2 := Int.tdiv_eq_ediv (by omega) (by decide)
  have hpos : 0 < dly / 2 := by omega
  have hm : rnd.tmod (dly / 2) = rnd % (dly / 2) := Int.tmod_eq_emod hrnd (by omega)
  have h1 : 0 ≤ rnd % (dly / 2) := Int.emod_nonneg _ (by omega)
  have h2 : rnd % (dly / 2) < dly / 2 := Int.emod_lt_of_pos _ hpos
  rw [hq, hm]
  refine ⟨by omega, ⟨by omega, by omega⟩, ⟨by omega, by omega⟩, by omega, by omega⟩

/-- C17, at the delay "1": `main` accepts it and calls `client(url, 1, 1)`; for
a context whose `dly` is that delay the guard `s->dly != 0` passes, the divisor
`s->dly / 2` is 0, and the compose step takes the remainder `rand() % 0`,
whatever `rand()` returns. -/
theorem delay_one_remainder_by_zero (n url : String) (rnd : Int) :
    main [n, "client", url, "1", "1"] = .client url 1 1 ∧
      (1 : Int) ≠ 0 ∧ (1 : Int).tdiv 2 = 0 ∧
      compose_dly 1 rnd = none ∧
      (client_cb (client_init 0 0 1) ⟨0, [], rnd, 0, 0⟩).status = .trapped := by
  have hq : (1 : Int).tdiv 2 = 0 := by decide
  have h : compose_dly 1 rnd = none := by
    simp [compose_dly, hq]
  have ha : atoi "1" = 1 := by decide
  refine ⟨?_, by decide, hq, h, ?_⟩
  · have hm := (main_client_dispatch n url "1" "1").2.2
    rw [ha] at hm
    exact hm (by decide) (by decide)
  · simp [client_cb, client_init, client_case0, h]

/-! ## Ownership of the pending message -/

/-- Walking two sequences one after the other. -/
theorem ledger_append (h : Bool) (a b : List Own) :
    ledger h (a ++ b) = (ledger h a).bind (fun h2 => ledger h2 b) := by
  induction a generalizing h with
  | nil => simp [ledger]
  | cons e t ih => cases h <;> cases e <;> simp [ledger, ih]

/-- A walk that succeeds balances the messages obtained against the messages
handed or freed and the message held. -/
theorem ledger_balance (l : List Own) :
    ∀ (h h2 : Bool), ledger h l = some h2 →
      obtained_count l + (if h then 1 else 0) = released_count l + (if h2 then 1 else 0) := by
  induction l with
  | nil =>
      intro h h2 hl
      simp [ledger] at hl
      simp [obtained_count, released_count, hl]
  | cons e t ih =>
      intro h h2 hl
      cases h <;> cases e <;> simp [ledger] at hl <;>
        have := ih _ _ hl <;>
        simp [obtained_count, released_count] at this ⊢ <;> omega

/-- One server callback on a context whose pending message is set exactly in
phase 2: its ownership events walk from the message held before to the message
held after, and the pending message is again set exactly in phase 2. -/
theorem server_own_step (s : server_state) (c : Completion)
    (hinv : s.msg.isSome = true ↔ s.state = 2) :
    ledger s.msg.isSome (server_own (s, c)) = some (server_cb s c).st.msg.isSome ∧
      ((server_cb s c).st.msg.isSome = true ↔ (server_cb s c).st.state = 2) := by
  obtain ⟨st, ctx, aio, msg⟩ := s
  simp only at hinv
  by_cases h2 : st = 2
  · subst h2
    obtain ⟨m, rfl⟩ : ∃ m, msg = some m := Option.isSome_iff_exists.mp (hinv.mpr rfl)
    simp [server_cb, server_own, own_of_trace, ledger]
  · have hm : msg = none := by
      cases msg with
      | none => rfl
      | some m => exact absurd (hinv.mp rfl) h2
    subst hm
    by_cases h0 : st = 0
    · subst h0
      simp [server_cb, server_own, own_of_trace, ledger]
    · by_cases h1 : st = 1
      · subst h1
        by_cases hr : c.result = 0
        · rcases ht : nng_msg_trim_u32 c.msg with _ | ⟨d, body⟩ <;>
            simp [server_cb, server_own, own_of_trace, ledger, hr, ht]
        · simp [server_cb, server_own, own_of_trace, ledger, hr]
      · by_cases h3 : st = 3
        · subst h3
          by_cases hr : c.result = 0 <;>
            simp [server_cb, server_own, own_of_trace, ledger, hr]
        · simp [server_cb, server_own, own_of_trace, ledger, h0, h1, h2, h3]

/-- Ownership events of two traces one after the other. -/
theorem own_of_trace_append (a b : List Event) :
    own_of_trace (a ++ b) = own_of_trace a ++ own_of_trace b := by
  induction a with
  | nil => rfl
  | cons e t ih =>
      cases e with
      | ctx_send c a m => cases m <;> simp [own_of_trace, ih]
      | _ => simp [own_of_trace, ih]

/-- The calls of the compose step before the append obtain one message. -/
theorem own_of_compose_calls (dly : Int) : own_of_trace (compose_calls dly) = [.obtained] := by
  unfold compose_calls
  split_ifs <;> rfl

/-- The compose step on a context with no pending message: its ownership events
walk from no message held to the message held after, and if it returns none is
pending. -/
theorem client_case0_own (s : client_state) (i : ClientIn) (hm : s.msg = none) :
    ledger false (own_of_trace (client_case0 s i).trace) =
        some (client_case0 s i).st.msg.isSome ∧
      ((client_case0 s i).status = .running → (client_case0 s i).st.msg = none) := by
  rcases h : compose_dly s.dly i.rnd with _ | d <;>
    by_cases ha : i.alloc_rv = 0 <;> by_cases hp : i.append_rv = 0 <;>
    simp [client_case0, h, ha, hp, own_of_trace_append, own_of_compose_calls, own_of_trace,
      ledger, hm]

/-- One client callback on a context with no pending message: its ownership
events walk from no message held to the message held after, and if it returns
none is pending. -/
theorem client_own_step (s : client_state) (i : ClientIn) (hm : s.msg = none) :
    ledger false (client_own (s, i)) = some (client_cb s i).st.msg.isSome ∧
      ((client_cb s i).status = .running → (client_cb s i).st.msg = none) := by
  by_cases h0 : s.state = 0
  · have hc : client_cb s i = client_case0 s i := by simp [client_cb, h0]
    have h := client_case0_own s i hm
    simpa [client_own, h0, hc] using h
  · by_cases h1 : s.state = 1
    · by_cases hr : i.result = 0 <;>
        simp [client_cb, client_own, h1, hr, own_of_trace, ledger, hm]
    · by_cases h2 : s.state = 2
      · by_cases hr : i.result = 0
        · have h := client_case0_own { s with msg := none, state := 0 } i rfl
          simpa [client_cb, client_own, h2, hr, own_of_trace, ledger] using h
        · simp [client_cb, client_own, h2, hr, own_of_trace, ledger, hm]
      · simp [client_cb, client_own, h0, h1, h2, own_of_trace, ledger, hm]

/-- At every point of every server run the ownership events walk from no message
held to the pending message, which is set exactly in phase 2. -/
theorem server_run_ledger (ctx aio : Nat) (c0 : Completion) (cs : List Completion) :
    ledger false (server_own_log (server_run ctx aio c0 cs)) =
        some (server_run ctx aio c0 cs).st.msg.isSome ∧
      ((server_run ctx aio c0 cs).st.msg.isSome = true ↔
        (server_run ctx aio c0 cs).st.state = 2) := by
  unfold server_run
  apply drive_invariant server_cb
    (fun r => ledger false (server_own_log r) = some r.st.msg.isSome ∧
      (r.st.msg.isSome = true ↔ r.st.state = 2))
  · intro r i hr _
    have h := server_own_step r.st i hr.2
    refine ⟨?_, h.2⟩
    simp only [server_own_log, advance, List.flatMap_append, List.flatMap_cons,
      List.flatMap_nil, List.append_nil, ledger_append]
    have h1 := hr.1
    simp only [server_own_log] at h1
    rw [h1]
    exact h.1
  · have h := server_own_step (server_init ctx aio) c0 (by simp [server_init])
    refine ⟨?_, h.2⟩
    simpa [server_own_log, start, server_init] using h.1

/-- At every point of every client run the ownership events walk from no message
held to the pending message, and none is pending after a callback that
returned. -/
theorem client_run_ledger (ctx aio : Nat) (dly : Int) (i0 : ClientIn) (is : List ClientIn) :
    ledger false (client_own_log (client_run ctx aio dly i0 is)) =
        some (client_run ctx aio dly i0 is).st.msg.isSome ∧
      ((client_run ctx aio dly i0 is).status = .running →
        (client_run ctx aio dly i0 is).st.msg = none) := by
  unfold client_run
  apply drive_invariant client_cb
    (fun r => ledger false (client_own_log r) = some r.st.msg.isSome ∧
      (r.status = .running → r.st.msg = none))
  · intro r i hr hrun
    have hm := hr.2 hrun
    have h := client_own_step r.st i hm
    refine ⟨?_, h.2⟩
    simp only [client_own_log, advance, List.flatMap_append, List.flatMap_cons,
      List.flatMap_nil, List.append_nil, ledger_append]
    have h1 := hr.1
    simp only [client_own_log, hm] at h1
    rw [h1]
    exact h.1
  · have h := client_own_step (client_init ctx aio dly) i0 rfl
    refine ⟨?_, h.2⟩
    simpa [client_own_log, start, client_init] using h.1

/-- C14 fails on a client whose append fails in the compose step: the message
it has allocated is neither handed to the transport nor freed; the process
exits with it, and further completions change nothing. -/
theorem allocated_message_dropped_at_exit :
    (client_run 7 8 0 ⟨0, [], 0, 0, 12⟩ []).status = .exited 1 ∧
      (client_run 7 8 0 ⟨0, [], 0, 0, 12⟩ []).trace =
        [.msg_alloc, .stderr "msg_append" 12] ∧
      client_own_log (client_run 7 8 0 ⟨0, [], 0, 0, 12⟩ []) = [.obtained] ∧
      obtained_count (client_own_log (client_run 7 8 0 ⟨0, [], 0, 0, 12⟩ [])) = 1 ∧
      released_count (client_own_log (client_run 7 8 0 ⟨0, [], 0, 0, 12⟩ [])) = 0 ∧
      client_own_log
        (client_run 7 8 0 ⟨0, [], 0, 0, 12⟩ [⟨0, [], 0, 0, 0⟩, ⟨0, [], 0, 0, 0⟩]) =
          [.obtained] := by
  refine ⟨by decide, by decide, by decide, by decide, by decide, by decide⟩

/-- C14 as amended: at every point of every run started in phase 0, a server
context's pending message is set exactly when its phase is 2 and a client
context's pending message is empty after every callback that returned; the
context never obtains a message while it holds one and never hands over or
frees a message it does not hold, so that every message obtained has been
handed to the transport or freed exactly once, never both and never twice,
except the one the context still holds (the pending message). -/
theorem message_ownership :
    (∀ (ctx aio : Nat) (c0 : Completion) (cs : List Completion),
        ((server_run ctx aio c0 cs).st.msg ≠ none ↔ (server_run ctx aio c0 cs).st.state = 2) ∧
        ledger false (server_own_log (server_run ctx aio c0 cs)) =
          some (server_run ctx aio c0 cs).st.msg.isSome ∧
        obtained_count (server_own_log (server_run ctx aio c0 cs)) =
          released_count (server_own_log (server_run ctx aio c0 cs)) +
            (if (server_run ctx aio c0 cs).st.msg.isSome then 1 else 0)) ∧
    (∀ (ctx aio : Nat) (dly : Int) (i0 : ClientIn) (is : List ClientIn),
        ((client_run ctx aio dly i0 is).status = .running →
          (client_run ctx aio dly i0 is).st.msg = none) ∧
        ledger false (client_own_log (client_run ctx aio dly i0 is)) =
          some (client_run ctx aio dly i0 is).st.msg.isSome ∧
        obtained_count (client_own_log (client_run ctx aio dly i0 is)) =
          released_count (client_own_log (client_run ctx aio dly i0 is)) +
            (if (client_run ctx aio dly i0 is).st.msg.isSome then 1 else 0)) := by
  constructor
  · intro ctx aio c0 cs
    have h := server_run_ledger ctx aio c0 cs
    refine ⟨?_, h.1, ?_⟩
    · rw [← h.2, Option.isSome_iff_ne_none]
    · simpa using ledger_balance _ _ _ h.1
  · intro ctx aio dly i0 is
    have h := client_run_ledger ctx aio dly i0 is
    refine ⟨h.2, h.1, ?_⟩
    simpa using ledger_balance _ _ _ h.1

/-- C14 as amended, on a server run that has received a 5-byte request and is
sleeping (one message obtained and held), and on a client run of one round
trip (nothing pending at the return). -/
theorem message_ownership_witness :
    ledger false (server_own_log (server_run 7 8 ⟨0, []⟩ [⟨0, [0, 0, 0, 9, 4]⟩])) = some true ∧
      (client_run 7 8 0 ⟨0, [], 0, 0, 0⟩ [⟨0, [], 0, 0, 0⟩, ⟨0, [], 0, 0, 0⟩]).st.msg = none :=
  ⟨(message_ownership.1 7 8 ⟨0, []⟩ [⟨0, [0, 0, 0, 9, 4]⟩]).2.1.trans (by decide),
    (message_ownership.2 7 8 0 ⟨0, [], 0, 0, 0⟩ [⟨0, [], 0, 0, 0⟩, ⟨0, [], 0, 0, 0⟩]).1
      (by decide)⟩

end NngLoadtest
